import Mathlib

/-!
Shallow embedding of `download_reads.py` (SRA read downloader): the entity
data model (`SraRun`, `SraExperiment`, `BioSample`), the per-sample run
selection algorithm `BioSample.get_sra_runs`, the experiment-to-sample
association step of `biosamples_from_biosample_uids`, the `SraRun` record
parser, the accession validators of `main`, and the esearch URL construction
of `uids_from_accession`.

Modelling conventions:
* XML attribute values that the Python code converts with `int(...)` are
  modelled as already-parsed `Int` fields of the input record; the
  `float(...)` values (`average`, `stdev`) are never used by any algorithm,
  so they are carried as their raw attribute strings.
* Python exceptions (IndexError, KeyError, AssertionError) are modelled with
  `Option`/`Except`: a `none`/`.error` result means the Python code raises.
* `sorted(..., key=..., reverse=True)` is modelled by a stable insertion
  sort that places an element after every earlier element with a strictly
  larger key and before every earlier element with a smaller-or-equal key,
  which is exactly the stable descending order Python produces.
* Mutation of `self.warnings` is modelled by returning the appended warnings
  alongside the run list; warning strings are modelled as a structured
  `Warning` datatype recording every datum interpolated into the Python
  message string.
-/

namespace DownloadReads

/-- One `<Read .../>` element of a run's `<Statistics>` block, with the
attributes `SraRun.__init__` reads.  `count` is passed to `int(...)` by the
source; `average` and `stdev` go to `float(...)` but are never used, so we
keep their raw text. -/
structure ReadXml where
  count : Int
  average : String
  stdev : String
  deriving Repr, DecidableEq

/-- The data `SraRun.__init__` extracts from a `<RUN>` XML element:
attributes (with `int(...)` conversions already applied) and the list of
`<Read>` children of `<Statistics>`. -/
structure SraRunXml where
  accession : String
  alias_ : String
  total_spots : Int
  total_bases : Int
  size : Int
  published : String
  nreads : Int
  reads : List ReadXml
  deriving Repr, DecidableEq

/-- The `SraRun` record built by `SraRun.__init__` (sample/experiment
back-references and the unused per-run warning list are dropped: no claim
touches them and they are set only after construction). -/
structure SraRun where
  accession : String
  alias_ : String
  total_spots : Int
  total_bases : Int
  size : Int
  published_date : String
  read_file_count : Int
  read_counts : List Int
  read_average_lengths : List String
  read_stdevs : List String
  deriving Repr, DecidableEq

/-- Model of `SraRun.__init__`: builds the record from the XML data and asserts that
the three parallel read-statistics lists have length `read_file_count`
(`nreads`).  A failed `assert` raises in Python, so the result is `Except`:
no record is returned on mismatch. -/
def SraRun.init (x : SraRunXml) : Except String SraRun :=
  let read_file_count := x.nreads
  let read_counts := x.reads.map ReadXml.count
  let read_average_lengths := x.reads.map ReadXml.average
  let read_stdevs := x.reads.map ReadXml.stdev
  if (read_counts.length : Int) ≠ read_file_count then
    .error "AssertionError: len(read_counts) != read_file_count"
  else if (read_average_lengths.length : Int) ≠ read_file_count then
    .error "AssertionError: len(read_average_lengths) != read_file_count"
  else if (read_stdevs.length : Int) ≠ read_file_count then
    .error "AssertionError: len(read_stdevs) != read_file_count"
  else
    .ok { accession := x.accession
          alias_ := x.alias_
          total_spots := x.total_spots
          total_bases := x.total_bases
          size := x.size
          published_date := x.published
          read_file_count := read_file_count
          read_counts := read_counts
          read_average_lengths := read_average_lengths
          read_stdevs := read_stdevs }

/-- The `SraExperiment` record (XML parsing details of `__init__` are not
needed by any claim; the fields the association and selection steps read are
kept, with the nested runs already built). -/
structure SraExperiment where
  accession : String
  alias_ : String
  biosample_accession : String
  library_name : String
  library_strategy : String
  library_source : String
  library_selection : String
  library_layout : String
  platform : String
  instrument_model : String
  runs : List SraRun
  deriving Repr, DecidableEq

/-- A structured rendering of the warning strings `get_sra_runs` appends to
`self.warnings`: each constructor records exactly the data interpolated into
the corresponding Python message. -/
inductive Warning where
  /-- Warning built by `get_multiple_run_warning_message(runs, run_type, biosample)`:
  "There were multiple `run_type` runs for sample `sample_accession`. Only
  the most recent (`selected_accession`) was downloaded. These additional
  runs were ignored: `ignored_accessions`". -/
  | multipleRuns (run_type : String) (sample_accession : String)
      (selected_accession : String) (ignored_accessions : List String)
  /-- Warning "There were runs associated with sample `sample_accession` which were
  neither Illumina reads nor long reads. They were ignored:
  `ignored_accessions`". -/
  | otherRuns (sample_accession : String) (ignored_accessions : List String)
  deriving Repr, DecidableEq

/-- The `BioSample` record built by `BioSample.__init__` and then filled in
by the association step.  `warnings` starts empty. -/
structure BioSample where
  uid : String
  accession : String
  submission_date : String
  last_update : String
  sra_sample_accession : Option String
  title : String
  taxonomy_id : String
  taxonomy_name : String
  illumina_experiments : List SraExperiment
  long_read_experiments : List SraExperiment
  other_experiments : List SraExperiment
  warnings : List Warning
  deriving Repr, DecidableEq

/-- Model of `get_multiple_run_warning_message(runs, run_type, biosample)`.  The
Python indexes `runs[0]`, which raises `IndexError` on an empty list, hence
the `Option`. -/
def get_multiple_run_warning_message (runs : List SraRun) (run_type : String)
    (biosample : BioSample) : Option Warning :=
  match runs with
  | [] => none
  | r :: rest =>
    some (.multipleRuns run_type biosample.accession r.accession
            (rest.map SraRun.accession))

/-- Lexicographic comparison of character lists by code point: exactly how
Python compares the `published_date` strings with `<`. -/
def charsLt : List Char → List Char → Bool
  | [], [] => false
  | [], _ :: _ => true
  | _ :: _, [] => false
  | a :: as, b :: bs =>
    if a.toNat < b.toNat then true
    else if b.toNat < a.toNat then false
    else charsLt as bs

/-- Python's `<` on strings (code-point lexicographic order). -/
def pyStrLt (a b : String) : Bool :=
  charsLt a.data b.data

/-- Stable insertion for a descending sort by `published_date`: the new
element (which comes earlier in the input) is placed before the first
position whose key is not strictly larger, so equal keys keep input order. -/
def insertRunDesc (a : SraRun) : List SraRun → List SraRun
  | [] => [a]
  | x :: xs =>
    if pyStrLt a.published_date x.published_date then x :: insertRunDesc a xs
    else a :: x :: xs

/-- Model of `sorted(runs, key=lambda x: x.published_date, reverse=True)`: the stable
descending sort by `published_date` (string comparison). -/
def sortRunsByPublishedDesc (l : List SraRun) : List SraRun :=
  l.foldr insertRunDesc []

/-- All runs of the sample's Illumina experiments, in order
(`for experiment in self.illumina_experiments: illumina_runs += experiment.runs`). -/
def BioSample.illuminaRuns (b : BioSample) : List SraRun :=
  (b.illumina_experiments.map SraExperiment.runs).flatten

/-- All runs of the sample's long-read experiments, in order. -/
def BioSample.longReadRuns (b : BioSample) : List SraRun :=
  (b.long_read_experiments.map SraExperiment.runs).flatten

/-- All runs of the sample's other-platform experiments, in order. -/
def BioSample.otherRuns (b : BioSample) : List SraRun :=
  (b.other_experiments.map SraExperiment.runs).flatten

/-- Model of `BioSample.get_sra_runs`, returning the selected runs together with the
warnings appended to `self.warnings` (in append order).  NOTE: in the
`len(long_read_runs) > 1` branch the source passes `illumina_runs` — not
`long_read_runs` — to `get_multiple_run_warning_message`; this embedding
reproduces that faithfully.  A `none` result models the `IndexError` that
call raises when `illumina_runs` is empty. -/
def BioSample.get_sra_runs (b : BioSample) :
    Option (List SraRun × List Warning) :=
  let illumina_runs := sortRunsByPublishedDesc b.illuminaRuns
  let long_read_runs := sortRunsByPublishedDesc b.longReadRuns
  let other_runs := b.otherRuns
  let illumina_part : Option (List SraRun × List Warning) :=
    match illumina_runs with
    | [] => some ([], [])
    | illumina_run :: _ =>
      if illumina_runs.length > 1 then
        (get_multiple_run_warning_message illumina_runs "Illumina" b).map
          (fun w => ([illumina_run], [w]))
      else some ([illumina_run], [])
  let long_read_part : Option (List SraRun × List Warning) :=
    match long_read_runs with
    | [] => some ([], [])
    | long_read_run :: _ =>
      if long_read_runs.length > 1 then
        (get_multiple_run_warning_message illumina_runs "long read" b).map
          (fun w => ([long_read_run], [w]))
      else some ([long_read_run], [])
  let other_part : List Warning :=
    if other_runs.isEmpty then []
    else [.otherRuns b.accession (other_runs.map SraRun.accession)]
  match illumina_part, long_read_part with
  | some (r1, w1), some (r2, w2) => some (r1 ++ r2, w1 ++ w2 ++ other_part)
  | _, _ => none

/-- The platform bucket an experiment is classified into. -/
inductive PlatformCategory where
  | illumina
  | longRead
  | other
  deriving Repr, DecidableEq

/-- The first list is an initial segment of the second. -/
def charsStartWith : List Char → List Char → Bool
  | [], _ => true
  | _ :: _, [] => false
  | a :: as, b :: bs => a = b && charsStartWith as bs

/-- Whether `needle` occurs as a contiguous substring of the character list
(Python's `needle in haystack`). -/
def charsContain (needle : List Char) : List Char → Bool
  | [] => needle.isEmpty
  | c :: cs => charsStartWith needle (c :: cs) || charsContain needle cs

/-- Lower-case an ASCII letter, leave everything else unchanged.  Python's
`str.lower()` agrees with this on the ASCII platform tags the archive emits
(the tags are ASCII identifiers such as `OXFORD_NANOPORE`). -/
def asciiLowerChar (c : Char) : Char :=
  if 65 ≤ c.toNat ∧ c.toNat ≤ 90 then Char.ofNat (c.toNat + 32) else c

/-- Model of `platform.lower()` (ASCII case folding, see `asciiLowerChar`). -/
def asciiLower (s : String) : String :=
  ⟨s.data.map asciiLowerChar⟩

/-- The classification applied to `experiment.platform.lower()` in
`biosamples_from_biosample_uids`: substring `"illumina"` → Illumina bucket,
else substring `"nanopore"` or `"pacbio"` → long-read bucket, else other. -/
def classify_platform (platform : String) : PlatformCategory :=
  let p := asciiLower platform
  if charsContain "illumina".data p.data then .illumina
  else if charsContain "nanopore".data p.data then .longRead
  else if charsContain "pacbio".data p.data then .longRead
  else .other

/-- Append one experiment to the bucket of `b` chosen by
`classify_platform`. -/
def addExperimentToBioSample (e : SraExperiment) (b : BioSample) : BioSample :=
  match classify_platform e.platform with
  | .illumina =>
    { b with illumina_experiments := b.illumina_experiments ++ [e] }
  | .longRead =>
    { b with long_read_experiments := b.long_read_experiments ++ [e] }
  | .other =>
    { b with other_experiments := b.other_experiments ++ [e] }

/-- One iteration of the association loop: look
`experiment.biosample_accession` up in
`biosample_dict = {b.accession: b for b in biosamples}` (a Python dict
comprehension keeps the LAST sample for a duplicated accession, so the
search prefers later list entries) and append the experiment to the matching
sample's bucket.  `none` models the `KeyError` raised when no sample has the
experiment's accession. -/
def assignExperiment (e : SraExperiment) :
    List BioSample → Option (List BioSample)
  | [] => none
  | b :: bs =>
    match assignExperiment e bs with
    | some bs' => some (b :: bs')
    | none =>
      if b.accession = e.biosample_accession then
        some (addExperimentToBioSample e b :: bs)
      else none

/-- The `for experiment in sra_experiments` association loop of
`biosamples_from_biosample_uids`: each experiment in turn is attached to its
sample; the first unresolvable experiment raises (`none`). -/
def associateExperiments (biosamples : List BioSample) :
    List SraExperiment → Option (List BioSample)
  | [] => some biosamples
  | e :: es =>
    match assignExperiment e biosamples with
    | none => none
    | some bs' => associateExperiments bs' es

/-- The accession types the `main` validators recognise, in the insertion
order of the `type_suffix` dict (`project, sample, experiment, run`). -/
inductive AccessionType where
  | project
  | sample
  | experiment
  | run
  deriving Repr, DecidableEq

/-- The `type_suffix` dict: the one-letter suffix of each accession type. -/
def type_suffix : AccessionType → Char
  | .project => 'P'
  | .sample => 'S'
  | .experiment => 'X'
  | .run => 'R'

/-- The regex `^(?:DR|ER|SR)<suffix>[0-9]+$` compiled for accession type
`t`: a two-letter source prefix from `{DR, ER, SR}`, then `t`'s suffix
letter, then one or more ASCII digits. -/
def matchesValidator (t : AccessionType) (s : String) : Bool :=
  match s.data with
  | a :: b :: c :: rest =>
    ((a = 'D' ∧ b = 'R') ∨ (a = 'E' ∧ b = 'R') ∨ (a = 'S' ∧ b = 'R')) ∧
      c = type_suffix t ∧ rest ≠ [] ∧ rest.all Char.isDigit
  | _ => false

/-- The inner `for accession_type, validator in validators.items()` loop:
the first matching type wins (`break`); `none` models the fall-through
`else` that logs "Could not determine accession type". -/
def classifyAccession (s : String) : Option AccessionType :=
  [AccessionType.project, .sample, .experiment, .run].find?
    (fun t => matchesValidator t s)

/-- The `validated_accessions` buckets built by `main`, plus the accessions
that were only reported via `logging.error` as unclassifiable. -/
structure ValidatedAccessions where
  project : List String
  sample : List String
  experiment : List String
  run : List String
  unclassifiable : List String
  deriving Repr, DecidableEq

/-- The validation loop of `main`: every input line is appended to the
bucket of the first validator that matches it, or reported as
unclassifiable (and kept out of every bucket) without stopping the loop. -/
def validateAccessions (inputs : List String) : ValidatedAccessions :=
  inputs.foldl
    (fun acc s =>
      match classifyAccession s with
      | some .project => { acc with project := acc.project ++ [s] }
      | some .sample => { acc with sample := acc.sample ++ [s] }
      | some .experiment => { acc with experiment := acc.experiment ++ [s] }
      | some .run => { acc with run := acc.run ++ [s] }
      | none => { acc with unclassifiable := acc.unclassifiable ++ [s] })
    ⟨[], [], [], [], []⟩

/-- The `accessions` argument of `uids_from_accession`: Python accepts
either a single string or a list of strings. -/
inductive AccessionsArg where
  | str (s : String)
  | list (l : List String)
  deriving Repr, DecidableEq

/-- The `isinstance(accessions, list)` normalisation at the top of
`uids_from_accession`: a bare string is wrapped into a one-element list. -/
def ensureAccessionList : AccessionsArg → List String
  | .str s => [s]
  | .list l => l

/-- The esearch URL produced by
`esearch_template_url % (database, ','.join(accessions))`. -/
def format_esearch_url (database : String) (accessions : List String) :
    String :=
  "https://eutils.ncbi.nlm.nih.gov/entrez/eutils/esearch.fcgi?db=" ++
    database ++ "&term=" ++ String.intercalate "," accessions

/-- The URL `uids_from_accession(accessions, database)` requests (the GET
request and XML decoding are the injected transport; the URL determines
the query). -/
def uids_from_accession_url (accessions : AccessionsArg) (database : String) :
    String :=
  format_esearch_url database (ensureAccessionList accessions)

/-! ### Proof layer: the most-recent run of a list, and ordering facts -/

/-- The first run of the list attaining the maximal `published_date`
(`none` for the empty list): the specification of what Python's stable
descending sort puts in front. -/
def mostRecentFirst : List SraRun → Option SraRun
  | [] => none
  | a :: l =>
    match mostRecentFirst l with
    | none => some a
    | some m =>
      if pyStrLt a.published_date m.published_date then some m else some a

theorem charsLt_irrefl (l : List Char) : charsLt l l = false := by
  induction l with
  | nil => rfl
  | cons a as ih => simp [charsLt, ih]

theorem charsLt_asymm {l₁ l₂ : List Char} (h : charsLt l₁ l₂ = true) :
    charsLt l₂ l₁ = false := by
  induction l₁ generalizing l₂ with
  | nil =>
    cases l₂ with
    | nil => simp [charsLt] at h
    | cons b bs => rfl
  | cons a as ih =>
    cases l₂ with
    | nil => simp [charsLt] at h
    | cons b bs =>
      by_cases hab : a.toNat < b.toNat
      · have : ¬ b.toNat < a.toNat := by omega
        simp [charsLt, hab, this]
      · by_cases hba : b.toNat < a.toNat
        · simp [charsLt, hab, hba] at h
        · simp only [charsLt, if_neg hab, if_neg hba] at h
          simp [charsLt, hab, hba, ih h]

theorem charsLt_negtrans {l₁ l₂ l₃ : List Char}
    (h₁ : charsLt l₁ l₂ = false) (h₂ : charsLt l₂ l₃ = false) :
    charsLt l₁ l₃ = false := by
  induction l₁ generalizing l₂ l₃ with
  | nil =>
    cases l₂ with
    | nil =>
      cases l₃ with
      | nil => rfl
      | cons c cs => simp [charsLt] at h₂
    | cons b bs => simp [charsLt] at h₁
  | cons a as ih =>
    cases l₃ with
    | nil => rfl
    | cons c cs =>
      cases l₂ with
      | nil => simp [charsLt] at h₂
      | cons b bs =>
        by_cases hab : a.toNat < b.toNat
        · simp [charsLt, hab] at h₁
        · by_cases hbc : b.toNat < c.toNat
          · simp [charsLt, hbc] at h₂
          · by_cases hac : a.toNat < c.toNat
            · exfalso; omega
            · by_cases hca : c.toNat < a.toNat
              · simp [charsLt, hac, hca]
              · have hba : ¬ b.toNat < a.toNat := by omega
                have hcb : ¬ c.toNat < b.toNat := by omega
                simp only [charsLt, if_neg hab, if_neg hba] at h₁
                simp only [charsLt, if_neg hbc, if_neg hcb] at h₂
                simp [charsLt, hac, hca, ih h₁ h₂]

theorem pyStrLt_irrefl (s : String) : pyStrLt s s = false :=
  charsLt_irrefl s.data

theorem pyStrLt_asymm {s t : String} (h : pyStrLt s t = true) :
    pyStrLt t s = false :=
  charsLt_asymm h

theorem pyStrLt_negtrans {s t u : String} (h₁ : pyStrLt s t = false)
    (h₂ : pyStrLt t u = false) : pyStrLt s u = false :=
  charsLt_negtrans h₁ h₂

theorem insertRunDesc_perm (a : SraRun) (l : List SraRun) :
    (insertRunDesc a l).Perm (a :: l) := by
  induction l with
  | nil => exact List.Perm.refl _
  | cons x xs ih =>
    by_cases h : pyStrLt a.published_date x.published_date
    · simp only [insertRunDesc, if_pos h]
      exact ((ih.cons x).trans (List.Perm.swap a x xs))
    · simp only [insertRunDesc, if_neg h]
      exact List.Perm.refl _

theorem sortRunsByPublishedDesc_perm (l : List SraRun) :
    (sortRunsByPublishedDesc l).Perm l := by
  induction l with
  | nil => exact List.Perm.refl _
  | cons a as ih =>
    exact (insertRunDesc_perm a (sortRunsByPublishedDesc as)).trans (ih.cons a)

theorem head?_insertRunDesc (a : SraRun) (l : List SraRun) :
    (insertRunDesc a l).head? =
      some (match l with
            | [] => a
            | x :: _ =>
              if pyStrLt a.published_date x.published_date then x else a) := by
  cases l with
  | nil => rfl
  | cons x xs =>
    by_cases h : pyStrLt a.published_date x.published_date
    · simp [insertRunDesc, if_pos h]
    · simp [insertRunDesc, if_neg h]

theorem head?_sortRunsByPublishedDesc (l : List SraRun) :
    (sortRunsByPublishedDesc l).head? = mostRecentFirst l := by
  induction l with
  | nil => rfl
  | cons a as ih =>
    show (insertRunDesc a (sortRunsByPublishedDesc as)).head? = _
    rw [head?_insertRunDesc]
    cases hs : sortRunsByPublishedDesc as with
    | nil =>
      rw [hs] at ih
      simp [mostRecentFirst, ← ih]
    | cons x xs =>
      rw [hs] at ih
      simp only [mostRecentFirst, ← ih]
      by_cases h : pyStrLt a.published_date x.published_date
      · simp [if_pos h]
      · simp [if_neg h]

theorem mostRecentFirst_eq_none {l : List SraRun} :
    mostRecentFirst l = none ↔ l = [] := by
  cases l with
  | nil => simp [mostRecentFirst]
  | cons a as =>
    simp only [mostRecentFirst]
    cases mostRecentFirst as with
    | none => simp
    | some m =>
      by_cases h : pyStrLt a.published_date m.published_date <;> simp [h]

theorem mostRecentFirst_mem {l : List SraRun} {m : SraRun}
    (h : mostRecentFirst l = some m) : m ∈ l := by
  induction l generalizing m with
  | nil => simp [mostRecentFirst] at h
  | cons a as ih =>
    simp only [mostRecentFirst] at h
    cases hm : mostRecentFirst as with
    | none => rw [hm] at h; dsimp only at h; cases h; exact List.mem_cons_self a as
    | some m' =>
      rw [hm] at h; dsimp only at h
      by_cases hlt : pyStrLt a.published_date m'.published_date
      · rw [if_pos hlt] at h; cases h
        exact List.mem_cons_of_mem a (ih hm)
      · rw [if_neg hlt] at h; cases h; exact List.mem_cons_self a as

theorem mostRecentFirst_max {l : List SraRun} {m : SraRun}
    (h : mostRecentFirst l = some m) :
    ∀ r ∈ l, pyStrLt m.published_date r.published_date = false := by
  induction l generalizing m with
  | nil => simp [mostRecentFirst] at h
  | cons a as ih =>
    simp only [mostRecentFirst] at h
    cases hm : mostRecentFirst as with
    | none =>
      rw [hm] at h; dsimp only at h; cases h
      have : as = [] := mostRecentFirst_eq_none.mp hm
      subst this
      intro r hr
      rcases List.mem_singleton.mp hr with rfl
      exact pyStrLt_irrefl _
    | some m' =>
      rw [hm] at h; dsimp only at h
      by_cases hlt : pyStrLt a.published_date m'.published_date
      · rw [if_pos hlt] at h; cases h
        intro r hr
        rcases List.mem_cons.mp hr with rfl | hr'
        · exact pyStrLt_asymm hlt
        · exact ih hm r hr'
      · rw [if_neg hlt] at h; cases h
        intro r hr
        rcases List.mem_cons.mp hr with rfl | hr'
        · exact pyStrLt_irrefl _
        · exact pyStrLt_negtrans (Bool.eq_false_iff.mpr hlt) (ih hm r hr')

theorem mostRecentFirst_first {l : List SraRun} {m : SraRun}
    (h : mostRecentFirst l = some m) :
    ∃ l₁ l₂, l = l₁ ++ m :: l₂ ∧
      ∀ r ∈ l₁, pyStrLt r.published_date m.published_date = true := by
  induction l generalizing m with
  | nil => simp [mostRecentFirst] at h
  | cons a as ih =>
    simp only [mostRecentFirst] at h
    cases hm : mostRecentFirst as with
    | none =>
      rw [hm] at h; dsimp only at h; cases h
      exact ⟨[], as, rfl, by simp⟩
    | some m' =>
      rw [hm] at h; dsimp only at h
      by_cases hlt : pyStrLt a.published_date m'.published_date
      · rw [if_pos hlt] at h; cases h
        obtain ⟨l₁, l₂, heq, hall⟩ := ih hm
        refine ⟨a :: l₁, l₂, by rw [heq]; rfl, ?_⟩
        intro r hr
        rcases List.mem_cons.mp hr with rfl | hr'
        · exact hlt
        · exact hall r hr'
      · rw [if_neg hlt] at h; cases h
        exact ⟨[], as, rfl, by simp⟩

/-! ### Proof layer: decomposing `get_sra_runs` -/

/-- The Illumina branch of `get_sra_runs`: selected run and warnings. -/
def illuminaPart (b : BioSample) : List SraRun × List Warning :=
  match sortRunsByPublishedDesc b.illuminaRuns with
  | [] => ([], [])
  | r :: rest =>
    ([r],
     if rest.isEmpty then []
     else [.multipleRuns "Illumina" b.accession r.accession
             (rest.map SraRun.accession)])

/-- The long-read branch of `get_sra_runs`: selected run and warnings, with
`none` for the `IndexError` raised when the warning is built from an empty
Illumina list. -/
def longReadPart (b : BioSample) : Option (List SraRun × List Warning) :=
  match sortRunsByPublishedDesc b.longReadRuns with
  | [] => some ([], [])
  | r :: rest =>
    if rest.isEmpty then some ([r], [])
    else
      match sortRunsByPublishedDesc b.illuminaRuns with
      | [] => none
      | ir :: irest =>
        some ([r], [.multipleRuns "long read" b.accession ir.accession
                      (irest.map SraRun.accession)])

/-- The other-platform warnings of `get_sra_runs`. -/
def otherPart (b : BioSample) : List Warning :=
  if b.otherRuns.isEmpty then []
  else [.otherRuns b.accession (b.otherRuns.map SraRun.accession)]

theorem get_sra_runs_eq (b : BioSample) :
    b.get_sra_runs =
      match longReadPart b with
      | none => none
      | some (r2, w2) =>
        some ((illuminaPart b).1 ++ r2,
          (illuminaPart b).2 ++ w2 ++ otherPart b) := by
  unfold BioSample.get_sra_runs illuminaPart longReadPart otherPart
  cases hI : sortRunsByPublishedDesc b.illuminaRuns with
  | nil =>
    cases hL : sortRunsByPublishedDesc b.longReadRuns with
    | nil => rfl
    | cons lr lrest =>
      cases lrest with
      | nil => rfl
      | cons lr2 lrest' =>
        simp [get_multiple_run_warning_message, Nat.succ_lt_succ]
  | cons ir irest =>
    cases hL : sortRunsByPublishedDesc b.longReadRuns with
    | nil =>
      cases irest with
      | nil => rfl
      | cons ir2 irest' =>
        simp [get_multiple_run_warning_message, Nat.succ_lt_succ]
    | cons lr lrest =>
      cases irest with
      | nil =>
        cases lrest with
        | nil => rfl
        | cons lr2 lrest' =>
          simp [get_multiple_run_warning_message, Nat.succ_lt_succ]
      | cons ir2 irest' =>
        cases lrest with
        | nil =>
          simp [get_multiple_run_warning_message, Nat.succ_lt_succ]
        | cons lr2 lrest' =>
          simp [get_multiple_run_warning_message, Nat.succ_lt_succ]

/-- Is this a multiple-runs warning for the given category? -/
def isMultipleRunsWarningFor (category : String) : Warning → Bool
  | .multipleRuns t _ _ _ => t == category
  | .otherRuns _ _ => false

/-- Is this the neither-Illumina-nor-long-read warning? -/
def isOtherRunsWarning : Warning → Bool
  | .multipleRuns _ _ _ _ => false
  | .otherRuns _ _ => true

theorem sortRuns_eq_nil_iff {l : List SraRun} :
    sortRunsByPublishedDesc l = [] ↔ l = [] := by
  constructor
  · intro h
    have := sortRunsByPublishedDesc_perm l
    rw [h] at this
    exact this.symm.eq_nil
  · intro h; subst h; rfl

theorem illuminaPart_of_sorted_nil {b : BioSample}
    (h : sortRunsByPublishedDesc b.illuminaRuns = []) :
    illuminaPart b = ([], []) := by
  unfold illuminaPart; rw [h]

theorem illuminaPart_of_sorted_cons {b : BioSample} {sel : SraRun}
    {rest : List SraRun}
    (h : sortRunsByPublishedDesc b.illuminaRuns = sel :: rest) :
    illuminaPart b =
      ([sel],
       if rest.isEmpty then []
       else [.multipleRuns "Illumina" b.accession sel.accession
               (rest.map SraRun.accession)]) := by
  unfold illuminaPart; rw [h]

/-- Every possible successful outcome of the long-read branch. -/
theorem longReadPart_cases {b : BioSample} {r2 : List SraRun}
    {w2 : List Warning} (h : longReadPart b = some (r2, w2)) :
    (b.longReadRuns = [] ∧ r2 = [] ∧ w2 = []) ∨
    (∃ lsel, (sortRunsByPublishedDesc b.longReadRuns).head? = some lsel ∧
      lsel ∈ b.longReadRuns ∧ r2 = [lsel] ∧
      (w2 = [] ∨
       ∃ ir irest, sortRunsByPublishedDesc b.illuminaRuns = ir :: irest ∧
         w2 = [.multipleRuns "long read" b.accession ir.accession
                 (irest.map SraRun.accession)])) := by
  unfold longReadPart at h
  cases hL : sortRunsByPublishedDesc b.longReadRuns with
  | nil =>
    rw [hL] at h; dsimp only at h
    cases h
    exact Or.inl ⟨sortRuns_eq_nil_iff.mp hL, rfl, rfl⟩
  | cons lr lrest =>
    have hmem : lr ∈ b.longReadRuns := by
      have := (sortRunsByPublishedDesc_perm b.longReadRuns).mem_iff.mp
        (by rw [hL]; exact List.mem_cons_self lr lrest)
      exact this
    rw [hL] at h; dsimp only at h
    cases lrest with
    | nil =>
      simp only [List.isEmpty_nil, if_true] at h
      cases h
      exact Or.inr ⟨lr, rfl, hmem, rfl, Or.inl rfl⟩
    | cons lr2 lrest' =>
      simp only [List.isEmpty_cons, if_false, Bool.false_eq_true] at h
      cases hI : sortRunsByPublishedDesc b.illuminaRuns with
      | nil => rw [hI] at h; dsimp only at h; cases h
      | cons ir irest =>
        rw [hI] at h; dsimp only at h
        cases h
        exact Or.inr ⟨lr, rfl, hmem, rfl, Or.inr ⟨ir, irest, rfl, rfl⟩⟩

/-- The selected Illumina run of the Illumina branch, when one exists. -/
theorem illuminaPart_fst_cases (b : BioSample) :
    (illuminaPart b).1 = [] ∨
    ∃ sel, (sortRunsByPublishedDesc b.illuminaRuns).head? = some sel ∧
      sel ∈ b.illuminaRuns ∧ (illuminaPart b).1 = [sel] := by
  cases hs : sortRunsByPublishedDesc b.illuminaRuns with
  | nil => exact Or.inl (by rw [illuminaPart_of_sorted_nil hs])
  | cons sel rest =>
    refine Or.inr ⟨sel, rfl, ?_, by rw [illuminaPart_of_sorted_cons hs]⟩
    exact (sortRunsByPublishedDesc_perm b.illuminaRuns).mem_iff.mp
      (by rw [hs]; exact List.mem_cons_self sel rest)

/-- The warnings of the Illumina branch are multiple-runs warnings for the
"Illumina" category only. -/
theorem illuminaPart_snd_cases (b : BioSample) :
    (illuminaPart b).2 = [] ∨
    ∃ sel rest, sortRunsByPublishedDesc b.illuminaRuns = sel :: rest ∧
      (illuminaPart b).2 =
        [.multipleRuns "Illumina" b.accession sel.accession
           (rest.map SraRun.accession)] := by
  cases hs : sortRunsByPublishedDesc b.illuminaRuns with
  | nil => exact Or.inl (by rw [illuminaPart_of_sorted_nil hs])
  | cons sel rest =>
    rw [illuminaPart_of_sorted_cons hs]
    cases rest with
    | nil => exact Or.inl (by simp)
    | cons r rest' => exact Or.inr ⟨sel, r :: rest', rfl, by simp⟩

/-! ### Concrete entities for witnesses and counterexamples -/

/-- A minimal run with the given accession and published date. -/
def mkTestRun (acc pd : String) : SraRun :=
  { accession := acc, alias_ := "", total_spots := 100, total_bases := 1000,
    size := 10, published_date := pd, read_file_count := 0,
    read_counts := [], read_average_lengths := [], read_stdevs := [] }

/-- A minimal experiment with the given accession, platform tag, owning
sample accession and runs. -/
def mkTestExperiment (acc platform bsacc : String) (runs : List SraRun) :
    SraExperiment :=
  { accession := acc, alias_ := "", biosample_accession := bsacc,
    library_name := "lib", library_strategy := "WGS",
    library_source := "GENOMIC", library_selection := "RANDOM",
    library_layout := "PAIRED", platform := platform,
    instrument_model := "model", runs := runs }

/-- A minimal sample with the given accession and experiment buckets. -/
def mkTestSample (acc : String) (ill lr oth : List SraExperiment) :
    BioSample :=
  { uid := "1", accession := acc, submission_date := "2020-01-01",
    last_update := "2020-01-02", sra_sample_accession := some "SRS1",
    title := "t", taxonomy_id := "562", taxonomy_name := "Escherichia coli",
    illumina_experiments := ill, long_read_experiments := lr,
    other_experiments := oth, warnings := [] }

/-- One Illumina run, two long-read runs: exercises the buggy
`len(long_read_runs) > 1` warning branch without crashing. -/
def sampleHybridMultiLong : BioSample :=
  mkTestSample "SAMN01"
    [mkTestExperiment "SRX1" "ILLUMINA" "SAMN01" [mkTestRun "I1" "2021-01-01"]]
    [mkTestExperiment "SRX2" "OXFORD_NANOPORE" "SAMN01"
       [mkTestRun "L1" "2021-05-05", mkTestRun "L2" "2020-01-01"]]
    []

/-- No Illumina runs, two long-read runs: the buggy warning branch indexes
the empty Illumina list. -/
def sampleOnlyLongMulti : BioSample :=
  mkTestSample "SAMN02" []
    [mkTestExperiment "SRX3" "OXFORD_NANOPORE" "SAMN02"
       [mkTestRun "L1" "2021-05-05", mkTestRun "L2" "2020-01-01"]]
    []

/-- Two Illumina runs in two experiments, published 2021 and 2022. -/
def sampleTwoIllumina : BioSample :=
  mkTestSample "SAMN03"
    [mkTestExperiment "SRX4" "ILLUMINA" "SAMN03" [mkTestRun "I1" "2021-01-01"],
     mkTestExperiment "SRX5" "ILLUMINA" "SAMN03" [mkTestRun "I2" "2022-06-15"]]
    [] []

/-- One Illumina run and one long-read run. -/
def sampleHybrid : BioSample :=
  mkTestSample "SAMN04"
    [mkTestExperiment "SRX6" "ILLUMINA" "SAMN04" [mkTestRun "I1" "2021-01-01"]]
    [mkTestExperiment "SRX7" "PACBIO_SMRT" "SAMN04" [mkTestRun "L1" "2021-05-05"]]
    []

/-- One Illumina run plus an experiment on an unrecognised platform with two
runs. -/
def sampleWithOther : BioSample :=
  mkTestSample "SAMN05"
    [mkTestExperiment "SRX8" "ILLUMINA" "SAMN05" [mkTestRun "I1" "2021-01-01"]]
    []
    [mkTestExperiment "SRX9" "CAPILLARY" "SAMN05"
       [mkTestRun "O1" "2021-02-02", mkTestRun "O2" "2021-03-03"]]

/-- A run record declaring three read files but carrying only two `<Read>`
elements. -/
def mismatchedRunXml : SraRunXml :=
  { accession := "SRR1", alias_ := "", total_spots := 100,
    total_bases := 1000, size := 10, published := "2021-01-01", nreads := 3,
    reads := [⟨50, "150.0", "0.0"⟩, ⟨50, "150.0", "0.0"⟩] }

/-- A well-formed run record with two declared and two present read files. -/
def matchedRunXml : SraRunXml :=
  { accession := "SRR2", alias_ := "", total_spots := 100,
    total_bases := 1000, size := 10, published := "2021-01-01", nreads := 2,
    reads := [⟨50, "150.0", "0.0"⟩, ⟨50, "150.0", "0.0"⟩] }

/-! ### Claim theorems -/

/-- Claim C1 (code bug): for a sample whose long-read list has more than one
run, `get_sra_runs` is claimed to emit a "long read" warning built from the
long-read run list.  The code instead passes the *Illumina* run list to
`get_multiple_run_warning_message`: on `sampleHybridMultiLong` (Illumina run
I1; long-read runs L1, L2) the emitted "long read" warning names I1 as the
downloaded run and lists nothing as ignored — the claim requires it to name
L1 and list L2 — and on `sampleOnlyLongMulti` (no Illumina runs, long-read
runs L1, L2) the code raises `IndexError` (`none`) instead of warning. -/
theorem longread_warning_uses_illumina_runs_bug :
    sampleHybridMultiLong.get_sra_runs =
      some ([mkTestRun "I1" "2021-01-01", mkTestRun "L1" "2021-05-05"],
        [.multipleRuns "long read" "SAMN01" "I1" []]) ∧
    sampleOnlyLongMulti.get_sra_runs = none := by decide

/-- Claim C5: `SraRun.init` never returns a record whose parallel
read-statistics arrays disagree with the declared `read_file_count`: a
returned record carries exactly the read data of the input (no truncation),
with all three list lengths equal to `nreads`; and the record declaring 3
read files with only 2 `<Read>` elements fails with the fatal assertion
error. -/
theorem run_parser_rejects_read_count_mismatch :
    SraRun.init mismatchedRunXml =
      .error "AssertionError: len(read_counts) != read_file_count" ∧
    ∀ x r, SraRun.init x = .ok r →
      r.read_file_count = x.nreads ∧
      r.read_counts = x.reads.map ReadXml.count ∧
      r.read_average_lengths = x.reads.map ReadXml.average ∧
      r.read_stdevs = x.reads.map ReadXml.stdev ∧
      (r.read_counts.length : Int) = r.read_file_count ∧
      (r.read_average_lengths.length : Int) = r.read_file_count ∧
      (r.read_stdevs.length : Int) = r.read_file_count := by
  constructor
  · rfl
  · intro x r h
    unfold SraRun.init at h
    by_cases h₁ : ((x.reads.map ReadXml.count).length : Int) = x.nreads
    · rw [if_neg (by exact fun hne => hne h₁)] at h
      have h₂ : ((x.reads.map ReadXml.average).length : Int) = x.nreads := by
        simpa using h₁
      have h₃ : ((x.reads.map ReadXml.stdev).length : Int) = x.nreads := by
        simpa using h₁
      rw [if_neg (by exact fun hne => hne h₂),
          if_neg (by exact fun hne => hne h₃)] at h
      cases h
      refine ⟨rfl, rfl, rfl, rfl, h₁, h₂, h₃⟩
    · rw [if_pos h₁] at h
      cases h

/-- Witness for C5: the universally quantified part applied to the
well-formed record `matchedRunXml`. -/
theorem run_parser_rejects_read_count_mismatch_witness :
    ∃ r, SraRun.init matchedRunXml = .ok r ∧
      r.read_file_count = matchedRunXml.nreads ∧
      (r.read_counts.length : Int) = r.read_file_count :=
  ⟨{ accession := "SRR2", alias_ := "", total_spots := 100,
     total_bases := 1000, size := 10, published_date := "2021-01-01",
     read_file_count := 2, read_counts := [50, 50],
     read_average_lengths := ["150.0", "150.0"],
     read_stdevs := ["0.0", "0.0"] },
   rfl,
   ((run_parser_rejects_read_count_mismatch.2 matchedRunXml _ rfl).1),
   ((run_parser_rejects_read_count_mismatch.2 matchedRunXml _
      rfl).2.2.2.2.1)⟩

/-- Claim C8: the accession validator classifies `SRP012345` as a project,
`SRX012345` as an experiment and `ERR999999` as a run; `SAMN00000000`
matches none of the four patterns, lands in no bucket, and processing of the
remaining input lines continues (the later `ERR999999` is still
classified). -/
theorem accession_validator_classification :
    classifyAccession "SRP012345" = some .project ∧
    classifyAccession "SRX012345" = some .experiment ∧
    classifyAccession "ERR999999" = some .run ∧
    classifyAccession "SAMN00000000" = none ∧
    validateAccessions
        ["SRP012345", "SRX012345", "SAMN00000000", "ERR999999"] =
      { project := ["SRP012345"], sample := [],
        experiment := ["SRX012345"], run := ["ERR999999"],
        unclassifiable := ["SAMN00000000"] } := by decide

/-- Claim C9: `uids_from_accession` wraps a bare string into a one-element
list before formatting the esearch URL, so a single accession string and the
corresponding one-element list produce the same query. -/
theorem uids_from_accession_single_eq_list (s database : String) :
    uids_from_accession_url (.str s) database =
      uids_from_accession_url (.list [s]) database := rfl

/-- Claim C2: for a sample with at least two Illumina runs, the run at the
head of the selection (the selected Illumina run) is an Illumina run with
maximal `published_date` (string comparison: no Illumina run's date is
strictly greater) and, among runs attaining the maximum, the earliest in
input order (every earlier Illumina run has a strictly smaller date); and
exactly one "Illumina" multiple-runs warning is emitted, whose ignored
accessions together with the selected accession are exactly the accessions
of all Illumina runs. -/
theorem illumina_selection_most_recent_and_warning
    (b : BioSample) (rs : List SraRun) (ws : List Warning)
    (hrun : b.get_sra_runs = some (rs, ws))
    (hlen : 2 ≤ b.illuminaRuns.length) :
    ∃ sel ignored,
      rs.head? = some sel ∧
      sel ∈ b.illuminaRuns ∧
      (∀ r ∈ b.illuminaRuns,
        pyStrLt sel.published_date r.published_date = false) ∧
      (∃ l₁ l₂, b.illuminaRuns = l₁ ++ sel :: l₂ ∧
        ∀ r ∈ l₁, pyStrLt r.published_date sel.published_date = true) ∧
      ws.filter (isMultipleRunsWarningFor "Illumina") =
        [.multipleRuns "Illumina" b.accession sel.accession ignored] ∧
      (sel.accession :: ignored).Perm
        (b.illuminaRuns.map SraRun.accession) := by
  rw [get_sra_runs_eq] at hrun
  cases hLP : longReadPart b with
  | none => rw [hLP] at hrun; cases hrun
  | some p =>
    obtain ⟨r2, w2⟩ := p
    rw [hLP] at hrun; dsimp only at hrun
    simp only [Option.some.injEq, Prod.mk.injEq] at hrun
    obtain ⟨hrs, hws⟩ := hrun
    subst hrs; subst hws
    have hperm := sortRunsByPublishedDesc_perm b.illuminaRuns
    have hlen' : 2 ≤ (sortRunsByPublishedDesc b.illuminaRuns).length := by
      rw [hperm.length_eq]; exact hlen
    obtain ⟨sel, rest, hs⟩ :
        ∃ sel rest,
          sortRunsByPublishedDesc b.illuminaRuns = sel :: rest ∧
            rest ≠ [] := by
      cases hs : sortRunsByPublishedDesc b.illuminaRuns with
      | nil => rw [hs] at hlen'; simp at hlen'
      | cons sel rest =>
        cases rest with
        | nil => rw [hs] at hlen'; simp at hlen'
        | cons r rest' => exact ⟨sel, r :: rest', rfl, by simp⟩
    obtain ⟨hs, hrest⟩ := hs
    have hIP := illuminaPart_of_sorted_cons hs
    have hre : rest.isEmpty = false := by
      cases rest with
      | nil => exact absurd rfl hrest
      | cons _ _ => rfl
    rw [hre] at hIP
    simp only [Bool.false_eq_true, if_false] at hIP
    have hmr : mostRecentFirst b.illuminaRuns = some sel := by
      rw [← head?_sortRunsByPublishedDesc, hs]; rfl
    refine ⟨sel, rest.map SraRun.accession, ?_, mostRecentFirst_mem hmr,
      mostRecentFirst_max hmr, mostRecentFirst_first hmr, ?_, ?_⟩
    · rw [hIP]; rfl
    · rw [hIP]
      have hw2 : w2.filter (isMultipleRunsWarningFor "Illumina") = [] := by
        rcases longReadPart_cases hLP with ⟨_, _, hw⟩ | ⟨_, _, _, _, hw⟩
        · rw [hw]; rfl
        · rcases hw with hw | ⟨ir, irest, _, hw⟩
          · rw [hw]; rfl
          · rw [hw]; rfl
      have hop : (otherPart b).filter (isMultipleRunsWarningFor "Illumina") =
          [] := by
        unfold otherPart
        by_cases ho : b.otherRuns.isEmpty
        · rw [if_pos ho]; rfl
        · rw [if_neg ho]; rfl
      dsimp only
      simp only [List.filter_append, hw2, hop, List.append_nil]
      rfl
    · have hmap := (hs ▸ hperm).map SraRun.accession
      simpa using hmap

/-- Witness for C2: `sampleTwoIllumina` has Illumina runs I1 (2021-01-01)
and I2 (2022-06-15); the theorem applies and yields the selected run and
warning. -/
theorem illumina_selection_most_recent_and_warning_witness :
    ∃ sel ignored,
      ([mkTestRun "I2" "2022-06-15"] : List SraRun).head? = some sel ∧
      sel ∈ sampleTwoIllumina.illuminaRuns ∧
      (∀ r ∈ sampleTwoIllumina.illuminaRuns,
        pyStrLt sel.published_date r.published_date = false) ∧
      (∃ l₁ l₂, sampleTwoIllumina.illuminaRuns = l₁ ++ sel :: l₂ ∧
        ∀ r ∈ l₁, pyStrLt r.published_date sel.published_date = true) ∧
      ([Warning.multipleRuns "Illumina" "SAMN03" "I2" ["I1"]] :
          List Warning).filter (isMultipleRunsWarningFor "Illumina") =
        [.multipleRuns "Illumina" sampleTwoIllumina.accession
           sel.accession ignored] ∧
      (sel.accession :: ignored).Perm
        (sampleTwoIllumina.illuminaRuns.map SraRun.accession) :=
  illumina_selection_most_recent_and_warning sampleTwoIllumina
    [mkTestRun "I2" "2022-06-15"]
    [.multipleRuns "Illumina" "SAMN03" "I2" ["I1"]]
    (by decide) (by decide)

theorem ite_one_zero_le_one {p : Prop} [Decidable p] :
    (if p then 1 else 0) ≤ 1 := by
  split <;> simp

/-- Claim C3: when `get_sra_runs` returns (and the sample's Illumina and
long-read run lists share no run), the returned list has at most two runs:
at most one from the Illumina experiments and at most one from the long-read
experiments. -/
theorem selected_runs_at_most_one_per_category
    (b : BioSample) (rs : List SraRun) (ws : List Warning)
    (hrun : b.get_sra_runs = some (rs, ws))
    (hdisj : ∀ r ∈ b.illuminaRuns, r ∉ b.longReadRuns) :
    rs.length ≤ 2 ∧
    rs.countP (fun r => decide (r ∈ b.illuminaRuns)) ≤ 1 ∧
    rs.countP (fun r => decide (r ∈ b.longReadRuns)) ≤ 1 := by
  rw [get_sra_runs_eq] at hrun
  cases hLP : longReadPart b with
  | none => rw [hLP] at hrun; cases hrun
  | some p =>
    obtain ⟨r2, w2⟩ := p
    rw [hLP] at hrun; dsimp only at hrun
    simp only [Option.some.injEq, Prod.mk.injEq] at hrun
    obtain ⟨hrs, -⟩ := hrun
    subst hrs
    have h2 : r2 = [] ∨ ∃ lsel, r2 = [lsel] ∧ lsel ∈ b.longReadRuns := by
      rcases longReadPart_cases hLP with ⟨-, hr2, -⟩ | ⟨lsel, -, hm, hr2, -⟩
      · exact Or.inl hr2
      · exact Or.inr ⟨lsel, hr2, hm⟩
    rcases illuminaPart_fst_cases b with h1 | ⟨sel, -, hselmem, h1⟩ <;>
      rcases h2 with h2 | ⟨lsel, h2, hlmem⟩ <;> rw [h1, h2]
    · exact ⟨by simp, by simp, by simp⟩
    · refine ⟨by simp, ?_, ?_⟩
      · have : decide (lsel ∈ b.illuminaRuns) = false :=
          decide_eq_false (fun hmem => hdisj lsel hmem hlmem)
        simp [List.countP_cons, this, ite_one_zero_le_one]
      · simp [List.countP_cons, ite_one_zero_le_one]
    · refine ⟨by simp, ?_, ?_⟩
      · simp [List.countP_cons, ite_one_zero_le_one]
      · have : decide (sel ∈ b.longReadRuns) = false :=
          decide_eq_false (hdisj sel hselmem)
        simp [List.countP_cons, this, ite_one_zero_le_one]
    · refine ⟨by simp, ?_, ?_⟩
      · have hl : decide (lsel ∈ b.illuminaRuns) = false :=
          decide_eq_false (fun hmem => hdisj lsel hmem hlmem)
        simp [List.countP_cons, hl, ite_one_zero_le_one]
      · have hi : decide (sel ∈ b.longReadRuns) = false :=
          decide_eq_false (hdisj sel hselmem)
        simp [List.countP_cons, hi, ite_one_zero_le_one]

/-- Witness for C3: `sampleHybrid` (one Illumina run, one long-read run). -/
theorem selected_runs_at_most_one_per_category_witness :
    ([mkTestRun "I1" "2021-01-01", mkTestRun "L1" "2021-05-05"] :
        List SraRun).length ≤ 2 ∧
      List.countP
        (fun r => decide (r ∈ sampleHybrid.illuminaRuns))
        [mkTestRun "I1" "2021-01-01", mkTestRun "L1" "2021-05-05"] ≤ 1 ∧
      List.countP
        (fun r => decide (r ∈ sampleHybrid.longReadRuns))
        [mkTestRun "I1" "2021-01-01", mkTestRun "L1" "2021-05-05"] ≤ 1 :=
  selected_runs_at_most_one_per_category sampleHybrid
    [mkTestRun "I1" "2021-01-01", mkTestRun "L1" "2021-05-05"] []
    (by decide) (by decide)

/-- Claim C4: when `get_sra_runs` returns (and the other-platform run list
shares no run with the Illumina or long-read lists), no other-platform run
is in the selection, and if the sample has any other-platform run, the
emitted other-runs warnings are exactly one warning listing all of their
accessions. -/
theorem other_runs_never_selected_and_warned
    (b : BioSample) (rs : List SraRun) (ws : List Warning)
    (hrun : b.get_sra_runs = some (rs, ws))
    (hdisj : ∀ r ∈ b.otherRuns,
      r ∉ b.illuminaRuns ∧ r ∉ b.longReadRuns) :
    (∀ r ∈ rs, r ∉ b.otherRuns) ∧
    (b.otherRuns ≠ [] →
      ws.filter isOtherRunsWarning =
        [.otherRuns b.accession (b.otherRuns.map SraRun.accession)]) := by
  rw [get_sra_runs_eq] at hrun
  cases hLP : longReadPart b with
  | none => rw [hLP] at hrun; cases hrun
  | some p =>
    obtain ⟨r2, w2⟩ := p
    rw [hLP] at hrun; dsimp only at hrun
    simp only [Option.some.injEq, Prod.mk.injEq] at hrun
    obtain ⟨hrs, hws⟩ := hrun
    subst hrs; subst hws
    constructor
    · intro r hr hother
      rcases List.mem_append.mp hr with hr1 | hr2
      · rcases illuminaPart_fst_cases b with h1 | ⟨sel, -, hselmem, h1⟩
        · rw [h1] at hr1; cases hr1
        · rw [h1] at hr1
          rcases List.mem_singleton.mp hr1 with rfl
          exact (hdisj r hother).1 hselmem
      · rcases longReadPart_cases hLP with ⟨-, h2, -⟩ | ⟨lsel, -, hlmem, h2, -⟩
        · rw [h2] at hr2; cases hr2
        · rw [h2] at hr2
          rcases List.mem_singleton.mp hr2 with rfl
          exact (hdisj r hother).2 hlmem
    · intro hne
      have h1 : ((illuminaPart b).2).filter isOtherRunsWarning = [] := by
        rcases illuminaPart_snd_cases b with h | ⟨sel, rest, -, h⟩ <;>
          rw [h] <;> rfl
      have h2 : w2.filter isOtherRunsWarning = [] := by
        rcases longReadPart_cases hLP with ⟨-, -, hw⟩ | ⟨-, -, -, -, hw⟩
        · rw [hw]; rfl
        · rcases hw with hw | ⟨ir, irest, -, hw⟩ <;> rw [hw] <;> rfl
      have hop : (otherPart b).filter isOtherRunsWarning =
          [.otherRuns b.accession (b.otherRuns.map SraRun.accession)] := by
        unfold otherPart
        have ho : b.otherRuns.isEmpty = false := by
          cases h : b.otherRuns with
          | nil => exact absurd h hne
          | cons _ _ => rfl
        rw [ho]
        rfl
      simp only [List.filter_append, h1, h2, hop, List.nil_append]

/-- Witness for C4: `sampleWithOther` (one Illumina run, two runs on an
unrecognised platform). -/
theorem other_runs_never_selected_and_warned_witness :
    (∀ r ∈ ([mkTestRun "I1" "2021-01-01"] : List SraRun),
      r ∉ sampleWithOther.otherRuns) ∧
    (sampleWithOther.otherRuns ≠ [] →
      ([Warning.otherRuns "SAMN05" ["O1", "O2"]] : List Warning).filter
          isOtherRunsWarning =
        [.otherRuns sampleWithOther.accession
           (sampleWithOther.otherRuns.map SraRun.accession)]) :=
  other_runs_never_selected_and_warned sampleWithOther
    [mkTestRun "I1" "2021-01-01"] [.otherRuns "SAMN05" ["O1", "O2"]]
    (by decide) (by decide)

/-- Claim C10: when `get_sra_runs` returns, the selected Illumina run (when
the sample has Illumina runs) is first in the result; in particular, for a
sample with runs in both categories the result is exactly the two-element
list of the Illumina run followed by the long-read run. -/
theorem illumina_run_precedes_longread_run
    (b : BioSample) (rs : List SraRun) (ws : List Warning)
    (hrun : b.get_sra_runs = some (rs, ws)) :
    (b.illuminaRuns ≠ [] →
      ∃ i, i ∈ b.illuminaRuns ∧ rs.head? = some i) ∧
    (b.illuminaRuns ≠ [] → b.longReadRuns ≠ [] →
      ∃ i l, rs = [i, l] ∧ i ∈ b.illuminaRuns ∧ l ∈ b.longReadRuns) := by
  rw [get_sra_runs_eq] at hrun
  cases hLP : longReadPart b with
  | none => rw [hLP] at hrun; cases hrun
  | some p =>
    obtain ⟨r2, w2⟩ := p
    rw [hLP] at hrun; dsimp only at hrun
    simp only [Option.some.injEq, Prod.mk.injEq] at hrun
    obtain ⟨hrs, -⟩ := hrun
    subst hrs
    have hIfst : b.illuminaRuns ≠ [] →
        ∃ sel, sel ∈ b.illuminaRuns ∧ (illuminaPart b).1 = [sel] := by
      intro hne
      rcases illuminaPart_fst_cases b with h1 | ⟨sel, -, hselmem, h1⟩
      · exfalso
        unfold illuminaPart at h1
        cases hs : sortRunsByPublishedDesc b.illuminaRuns with
        | nil => exact hne (sortRuns_eq_nil_iff.mp hs)
        | cons x xs => rw [hs] at h1; cases h1
      · exact ⟨sel, hselmem, h1⟩
    constructor
    · intro hne
      obtain ⟨sel, hselmem, h1⟩ := hIfst hne
      exact ⟨sel, hselmem, by rw [h1]; rfl⟩
    · intro hne hlne
      obtain ⟨sel, hselmem, h1⟩ := hIfst hne
      rcases longReadPart_cases hLP with ⟨hnil, -, -⟩ | ⟨lsel, -, hlmem, h2, -⟩
      · exact absurd hnil hlne
      · exact ⟨sel, lsel, by rw [h1, h2]; rfl, hselmem, hlmem⟩

/-- Witness for C10: `sampleHybrid` has one run in each category and the
result is exactly Illumina run first, long-read run second. -/
theorem illumina_run_precedes_longread_run_witness :
    (sampleHybrid.illuminaRuns ≠ [] →
      ∃ i, i ∈ sampleHybrid.illuminaRuns ∧
        ([mkTestRun "I1" "2021-01-01", mkTestRun "L1" "2021-05-05"] :
            List SraRun).head? = some i) ∧
    (sampleHybrid.illuminaRuns ≠ [] → sampleHybrid.longReadRuns ≠ [] →
      ∃ i l,
        ([mkTestRun "I1" "2021-01-01", mkTestRun "L1" "2021-05-05"] :
            List SraRun) = [i, l] ∧
        i ∈ sampleHybrid.illuminaRuns ∧ l ∈ sampleHybrid.longReadRuns) :=
  illumina_run_precedes_longread_run sampleHybrid
    [mkTestRun "I1" "2021-01-01", mkTestRun "L1" "2021-05-05"] []
    (by decide)

/-! ### Proof layer: the experiment-to-sample association -/

/-- All experiments of a sample across the three buckets, as concatenated by
`add_sra_sample_to_runs`. -/
def BioSample.bucketedExperiments (b : BioSample) : List SraExperiment :=
  b.illumina_experiments ++ b.long_read_experiments ++ b.other_experiments

/-- Each bucket holds only experiments of its platform category which name
this sample's accession. -/
def wellClassified (b : BioSample) : Prop :=
  (∀ e ∈ b.illumina_experiments,
    classify_platform e.platform = .illumina ∧
      e.biosample_accession = b.accession) ∧
  (∀ e ∈ b.long_read_experiments,
    classify_platform e.platform = .longRead ∧
      e.biosample_accession = b.accession) ∧
  (∀ e ∈ b.other_experiments,
    classify_platform e.platform = .other ∧
      e.biosample_accession = b.accession)

theorem addExperimentToBioSample_accession (e : SraExperiment)
    (b : BioSample) :
    (addExperimentToBioSample e b).accession = b.accession := by
  unfold addExperimentToBioSample
  cases classify_platform e.platform <;> rfl

theorem addExperimentToBioSample_wellClassified {e : SraExperiment}
    {b : BioSample} (hb : wellClassified b)
    (hacc : e.biosample_accession = b.accession) :
    wellClassified (addExperimentToBioSample e b) := by
  obtain ⟨h₁, h₂, h₃⟩ := hb
  unfold addExperimentToBioSample wellClassified
  cases hc : classify_platform e.platform with
  | illumina =>
    dsimp only
    refine ⟨?_, h₂, h₃⟩
    intro e' he'
    rcases List.mem_append.mp he' with he' | he'
    · exact h₁ e' he'
    · rcases List.mem_singleton.mp he' with rfl
      exact ⟨hc, hacc⟩
  | longRead =>
    dsimp only
    refine ⟨h₁, ?_, h₃⟩
    intro e' he'
    rcases List.mem_append.mp he' with he' | he'
    · exact h₂ e' he'
    · rcases List.mem_singleton.mp he' with rfl
      exact ⟨hc, hacc⟩
  | other =>
    dsimp only
    refine ⟨h₁, h₂, ?_⟩
    intro e' he'
    rcases List.mem_append.mp he' with he' | he'
    · exact h₃ e' he'
    · rcases List.mem_singleton.mp he' with rfl
      exact ⟨hc, hacc⟩

theorem addExperimentToBioSample_buckets_perm (e : SraExperiment)
    (b : BioSample) :
    (addExperimentToBioSample e b).bucketedExperiments.Perm
      (e :: b.bucketedExperiments) := by
  unfold addExperimentToBioSample BioSample.bucketedExperiments
  cases classify_platform e.platform with
  | illumina =>
    dsimp only
    have h1 : b.illumina_experiments ++ [e] ++ b.long_read_experiments ++
          b.other_experiments =
        b.illumina_experiments ++
          e :: (b.long_read_experiments ++ b.other_experiments) := by
      simp
    have h2 : e :: (b.illumina_experiments ++
          (b.long_read_experiments ++ b.other_experiments)) =
        e :: (b.illumina_experiments ++ b.long_read_experiments ++
          b.other_experiments) := by
      simp
    rw [h1, ← h2]
    exact List.perm_middle
  | longRead =>
    dsimp only
    have h1 : b.illumina_experiments ++ (b.long_read_experiments ++ [e]) ++
          b.other_experiments =
        (b.illumina_experiments ++ b.long_read_experiments) ++
          e :: b.other_experiments := by
      simp
    rw [h1]
    exact List.perm_middle
  | other =>
    dsimp only
    have h1 : b.illumina_experiments ++ b.long_read_experiments ++
          (b.other_experiments ++ [e]) =
        (b.illumina_experiments ++ b.long_read_experiments ++
          b.other_experiments) ++ e :: [] := by
      simp
    have h2 : e :: (b.illumina_experiments ++ b.long_read_experiments ++
          b.other_experiments) =
        e :: ((b.illumina_experiments ++ b.long_read_experiments ++
          b.other_experiments) ++ []) := by
      simp
    rw [h1, h2]
    exact List.perm_middle

theorem assignExperiment_props {e : SraExperiment} {bs bs' : List BioSample}
    (h : assignExperiment e bs = some bs') :
    ((∀ b ∈ bs, wellClassified b) → ∀ b ∈ bs', wellClassified b) ∧
    ((bs'.map BioSample.bucketedExperiments).flatten).Perm
      (e :: (bs.map BioSample.bucketedExperiments).flatten) ∧
    bs'.map BioSample.accession = bs.map BioSample.accession := by
  induction bs generalizing bs' with
  | nil => cases h
  | cons b bs ih =>
    unfold assignExperiment at h
    cases ht : assignExperiment e bs with
    | some bs₁ =>
      rw [ht] at h; dsimp only at h
      cases h
      obtain ⟨ihw, ihp, iha⟩ := ih ht
      refine ⟨?_, ?_, ?_⟩
      · intro hw b' hb'
        rcases List.mem_cons.mp hb' with rfl | hb'
        · exact hw b' (List.mem_cons_self b' bs)
        · exact ihw (fun x hx => hw x (List.mem_cons_of_mem _ hx)) b' hb'
      · show (b.bucketedExperiments ++
            (bs₁.map BioSample.bucketedExperiments).flatten).Perm _
        exact ((List.Perm.append_left _ ihp).trans List.perm_middle)
      · show b.accession :: bs₁.map BioSample.accession = _
        rw [iha]; rfl
    | none =>
      rw [ht] at h; dsimp only at h
      by_cases hg : b.accession = e.biosample_accession
      · rw [if_pos hg] at h
        cases h
        refine ⟨?_, ?_, ?_⟩
        · intro hw b' hb'
          rcases List.mem_cons.mp hb' with rfl | hb'
          · exact addExperimentToBioSample_wellClassified
              (hw b (List.mem_cons_self b bs)) hg.symm
          · exact hw b' (List.mem_cons_of_mem _ hb')
        · show ((addExperimentToBioSample e b).bucketedExperiments ++
              (bs.map BioSample.bucketedExperiments).flatten).Perm _
          exact List.Perm.append_right _
            (addExperimentToBioSample_buckets_perm e b)
        · show (addExperimentToBioSample e b).accession ::
              bs.map BioSample.accession = _
          rw [addExperimentToBioSample_accession]; rfl
      · rw [if_neg hg] at h
        cases h

theorem assignExperiment_none_iff {e : SraExperiment}
    {bs : List BioSample} :
    assignExperiment e bs = none ↔
      e.biosample_accession ∉ bs.map BioSample.accession := by
  induction bs with
  | nil => simp [assignExperiment]
  | cons b bs ih =>
    unfold assignExperiment
    cases ht : assignExperiment e bs with
    | some bs₁ =>
      have hmem : e.biosample_accession ∈ bs.map BioSample.accession := by
        by_contra hnot
        rw [← ih] at hnot
        rw [ht] at hnot; cases hnot
      simp [List.mem_cons, hmem]
    | none =>
      have hnotmem : e.biosample_accession ∉ bs.map BioSample.accession :=
        ih.mp ht
      dsimp only
      by_cases hg : b.accession = e.biosample_accession
      · rw [if_pos hg]
        constructor
        · intro h; cases h
        · intro hn
          exact absurd (List.mem_cons.mpr (Or.inl hg.symm)) hn
      · rw [if_neg hg]
        constructor
        · intro _ hmem
          rcases List.mem_cons.mp hmem with h | h
          · exact hg h.symm
          · exact hnotmem h
        · intro _; rfl

theorem associateExperiments_props {bs bs' : List BioSample}
    {es : List SraExperiment}
    (h : associateExperiments bs es = some bs') :
    ((∀ b ∈ bs, wellClassified b) → ∀ b ∈ bs', wellClassified b) ∧
    ((bs'.map BioSample.bucketedExperiments).flatten).Perm
      (es ++ (bs.map BioSample.bucketedExperiments).flatten) ∧
    bs'.map BioSample.accession = bs.map BioSample.accession := by
  induction es generalizing bs with
  | nil =>
    unfold associateExperiments at h
    cases h
    exact ⟨fun hw => hw, by simp, rfl⟩
  | cons e es ih =>
    unfold associateExperiments at h
    cases ht : assignExperiment e bs with
    | none => rw [ht] at h; cases h
    | some bs₁ =>
      rw [ht] at h; dsimp only at h
      obtain ⟨hw₁, hp₁, ha₁⟩ := assignExperiment_props ht
      obtain ⟨hw₂, hp₂, ha₂⟩ := ih h
      refine ⟨fun hw => hw₂ (hw₁ hw), ?_, ha₂.trans ha₁⟩
      exact hp₂.trans ((List.Perm.append_left es hp₁).trans List.perm_middle)

/-- Claim C6: after the experiment-to-sample association step (starting from
samples with empty buckets, as `BioSample.__init__` builds them), every
bucket of every sample holds only experiments of its platform category
(Illumina for a case-insensitive "illumina" substring, long-read for
"nanopore" or "pacbio", other for the rest) which name that sample's
accession — so the three buckets are pairwise disjoint — and the buckets of
all samples together hold exactly the associated experiments (as a
multiset): every experiment lies in exactly one bucket. -/
theorem experiment_association_partitions_by_platform
    (biosamples bs' : List BioSample) (sra_experiments : List SraExperiment)
    (hinit : ∀ b ∈ biosamples,
      b.illumina_experiments = [] ∧ b.long_read_experiments = [] ∧
        b.other_experiments = [])
    (hassoc : associateExperiments biosamples sra_experiments = some bs') :
    (∀ b ∈ bs', wellClassified b) ∧
    ((bs'.map BioSample.bucketedExperiments).flatten).Perm
      sra_experiments := by
  obtain ⟨hw, hp, -⟩ := associateExperiments_props hassoc
  have hinitW : ∀ b ∈ biosamples, wellClassified b := by
    intro b hb
    obtain ⟨h1, h2, h3⟩ := hinit b hb
    exact ⟨by rw [h1]; simp, by rw [h2]; simp, by rw [h3]; simp⟩
  have hflat : ((biosamples.map BioSample.bucketedExperiments)).flatten =
      [] := by
    rw [List.flatten_eq_nil_iff]
    intro l hl
    rcases List.mem_map.mp hl with ⟨b, hb, rfl⟩
    obtain ⟨h1, h2, h3⟩ := hinit b hb
    unfold BioSample.bucketedExperiments
    rw [h1, h2, h3]
    rfl
  rw [hflat] at hp
  exact ⟨hw hinitW, by simpa using hp⟩

/-- Claim C7: the association loop raises (returns `none`) exactly when some
fetched experiment's declared biosample accession matches no fetched
sample's accession; when every experiment resolves, the stage completes with
a result (no experiment is silently dropped: failure is fatal, not a
skip). -/
theorem experiment_join_fails_iff_unknown_sample
    (biosamples : List BioSample) (sra_experiments : List SraExperiment) :
    associateExperiments biosamples sra_experiments = none ↔
      ∃ e ∈ sra_experiments,
        e.biosample_accession ∉ biosamples.map BioSample.accession := by
  induction sra_experiments generalizing biosamples with
  | nil => simp [associateExperiments]
  | cons e es ih =>
    unfold associateExperiments
    cases ht : assignExperiment e biosamples with
    | none =>
      have hnm := assignExperiment_none_iff.mp ht
      constructor
      · intro _
        exact ⟨e, List.mem_cons_self e es, hnm⟩
      · intro _; rfl
    | some bs₁ =>
      have hmem : e.biosample_accession ∈
          biosamples.map BioSample.accession := by
        by_contra hn
        rw [← assignExperiment_none_iff] at hn
        rw [ht] at hn; cases hn
      obtain ⟨-, -, ha⟩ := assignExperiment_props ht
      dsimp only
      rw [ih bs₁, ha]
      constructor
      · rintro ⟨e', he', hn⟩
        exact ⟨e', List.mem_cons_of_mem _ he', hn⟩
      · rintro ⟨e', he', hn⟩
        rcases List.mem_cons.mp he' with rfl | he'
        · exact absurd hmem hn
        · exact ⟨e', he', hn⟩

/-- A freshly parsed sample with empty buckets, for the association step. -/
def freshSampleW : BioSample := mkTestSample "SAMN06" [] [] []

/-- Three experiments of the three platform categories, all naming
`SAMN06`. -/
def sraExperimentsW : List SraExperiment :=
  [mkTestExperiment "SRX11" "ILLUMINA" "SAMN06" [],
   mkTestExperiment "SRX12" "OXFORD_NANOPORE" "SAMN06" [],
   mkTestExperiment "SRX13" "CAPILLARY" "SAMN06" []]

/-- The sample of `freshSampleW` after associating `sraExperimentsW`. -/
def joinedBioSamplesW : List BioSample :=
  [mkTestSample "SAMN06"
    [mkTestExperiment "SRX11" "ILLUMINA" "SAMN06" []]
    [mkTestExperiment "SRX12" "OXFORD_NANOPORE" "SAMN06" []]
    [mkTestExperiment "SRX13" "CAPILLARY" "SAMN06" []]]

/-- Witness for C6: associating one experiment of each category with a
single fresh sample. -/
theorem experiment_association_partitions_by_platform_witness :
    (∀ b ∈ joinedBioSamplesW, wellClassified b) ∧
    ((joinedBioSamplesW.map BioSample.bucketedExperiments).flatten).Perm
      sraExperimentsW :=
  experiment_association_partitions_by_platform [freshSampleW]
    joinedBioSamplesW sraExperimentsW (by decide) (by decide)

/-- Witness for C7: an experiment naming the unknown sample `SAMN99` makes
the join fail. -/
theorem experiment_join_fails_iff_unknown_sample_witness :
    associateExperiments [freshSampleW]
      [mkTestExperiment "SRX14" "ILLUMINA" "SAMN99" []] = none :=
  (experiment_join_fails_iff_unknown_sample [freshSampleW]
      [mkTestExperiment "SRX14" "ILLUMINA" "SAMN99" []]).mpr
    ⟨mkTestExperiment "SRX14" "ILLUMINA" "SAMN99" [],
     by decide, by decide⟩

/-- Witness for C9: the theorem applied to a concrete accession and
database. -/
theorem uids_from_accession_single_eq_list_witness :
    uids_from_accession_url (.str "PRJNA12345") "bioproject" =
      uids_from_accession_url (.list ["PRJNA12345"]) "bioproject" :=
  uids_from_accession_single_eq_list "PRJNA12345" "bioproject"

end DownloadReads
